import Mathlib

/-!
# Verification of `temp_dir.py`

A shallow embedding of the module `temp_dir.py`, which provides

* `in_temp_dir` — a context manager that records the current working
  directory, creates a fresh temporary directory with `tempfile.mkdtemp()`,
  `os.chdir`s into it, yields its path to the caller's block, and on exit
  runs `try: os.chdir(original) finally: shutil.rmtree(temporary)` inside
  the outer `finally`;
* `within_temp_dir` — a decorator (built with `functools.wraps`) that runs
  the wrapped callable inside an `in_temp_dir` scope.

Process state is modelled explicitly: the current working directory, the
set of filesystem entries, a counter used by `mkdtemp` to produce its
unique fresh names, and a log of the operating-system calls attempted
(so that ordering-of-attempts properties can be stated).  Failures of the
host environment are injected through a `Faults` record.
-/

/-- A filesystem path.  `tempfile.mkdtemp` guarantees fresh, unique names,
so paths inside the `n`-th temporary directory are modelled structurally as
`tmp n rest` (with `rest = []` for the directory itself); every other path
is `other s`. -/
inductive Entry where
  | other (s : String)
  | tmp (n : Nat) (rest : List String)
deriving DecidableEq, Repr

/-- The error taxonomy: failure of `tempfile.mkdtemp`, of `os.chdir`, of
`shutil.rmtree`, and errors raised by the caller's block itself (such as a
`ValueError`). -/
inductive Err where
  | creationError
  | directoryChangeError
  | cleanupError
  | blockError (msg : String)
deriving DecidableEq, Repr

/-- An attempted operating-system call, recorded whether or not the call
succeeded. -/
inductive Op where
  | mkdtempOp
  | chdirOp (target : Entry)
  | rmtreeOp (target : Entry)
deriving DecidableEq, Repr

/-- Process/filesystem state: the current working directory, the set of
existing filesystem entries, the counter from which `mkdtemp` draws its
next unique name, and the log of attempted calls. -/
structure PState where
  cwd : Entry
  fs : List Entry
  counter : Nat
  log : List Op
deriving DecidableEq, Repr

/-- Fault injection for the host environment: whether `mkdtemp` fails, and
the directories for which `chdir` (resp. `rmtree`) is rejected. -/
structure Faults where
  mkdtempFails : Bool
  chdirDenied : List Entry
  rmtreeDenied : List Entry

/-- `isUnder d e` holds when entry `e` is the directory `d` itself or lies
inside it.  Only temporary directories have modelled contents. -/
def isUnder : Entry → Entry → Bool
  | .tmp n r, .tmp m s => n == m && r.isPrefixOf s
  | .other a, .other b => a == b
  | _, _ => false

/-- `os.getcwd()`: read the current working directory. -/
def getcwd (st : PState) : Entry := st.cwd

/-- `tempfile.mkdtemp()`: create a fresh, uniquely named, empty directory
and return its path, or fail with a creation error. -/
def mkdtemp (f : Faults) (st : PState) : Except Err Entry × PState :=
  let st1 : PState := { st with log := st.log ++ [Op.mkdtempOp] }
  if f.mkdtempFails then
    (.error .creationError, st1)
  else
    (.ok (Entry.tmp st.counter []),
     { st1 with fs := Entry.tmp st.counter [] :: st1.fs, counter := st.counter + 1 })

/-- `os.chdir(d)`: switch the working directory to `d`; fails when `d` does
not exist or the host rejects the switch. -/
def chdir (f : Faults) (d : Entry) (st : PState) : Except Err Unit × PState :=
  let st1 : PState := { st with log := st.log ++ [Op.chdirOp d] }
  if d ∈ st.fs ∧ d ∉ f.chdirDenied then
    (.ok (), { st1 with cwd := d })
  else
    (.error .directoryChangeError, st1)

/-- `shutil.rmtree(d)`: recursively delete `d` and everything under it, or
fail with a cleanup error.  Failure is injected solely through
`Faults.rmtreeDenied`; the `FileNotFoundError` that the real `rmtree`
raises on a nonexistent target is not modelled as a separate branch, so
theorems whose conclusions would be disturbed by that error path (the
block-error propagation property) carry an explicit hypothesis that the
target is still on disk when the deletion is attempted. -/
def rmtree (f : Faults) (d : Entry) (st : PState) : Except Err Unit × PState :=
  let st1 : PState := { st with log := st.log ++ [Op.rmtreeOp d] }
  if d ∈ f.rmtreeDenied then
    (.error .cleanupError, st1)
  else
    (.ok (), { st1 with fs := st1.fs.filter (fun e => !isUnder d e) })

/-- The caller's block: it receives the yielded temporary-directory path and
the current state, and returns a result (or a raised error) and an updated
state. -/
def Block (α : Type) : Type := Entry → PState → Except Err α × PState

/-- The entry portion of `in_temp_dir` (lines 46–48 of `temp_dir.py`):

    original_directory = os.getcwd()
    temporary_directory = tempfile.mkdtemp()
    os.chdir(temporary_directory)

Runs before the `try`, so an error here performs no cleanup. -/
def scopeEnter (f : Faults) (st : PState) : Except Err Entry × PState :=
  match mkdtemp f st with
  | (.error e, st1) => (.error e, st1)
  | (.ok temporary_directory, st1) =>
    match chdir f temporary_directory st1 with
    | (.error e, st2) => (.error e, st2)
    | (.ok _, st2) => (.ok temporary_directory, st2)

/-- The exit portion of `in_temp_dir` (lines 51–55 of `temp_dir.py`):

    finally:
        try:
            os.chdir(original_directory)
        finally:
            shutil.rmtree(temporary_directory)

Both steps are attempted; following Python's `finally` semantics, an error
from `rmtree` takes precedence over one from the restoring `chdir`, which
in turn replaces the block's own outcome `res`. -/
def scopeExit {α : Type} (f : Faults) (original_directory temporary_directory : Entry)
    (res : Except Err α) (st : PState) : Except Err α × PState :=
  let r4 := chdir f original_directory st
  let r5 := rmtree f temporary_directory r4.2
  match r5.1 with
  | .error e => (.error e, r5.2)
  | .ok _ =>
    match r4.1 with
    | .error e => (.error e, r5.2)
    | .ok _ => (res, r5.2)

/-- `in_temp_dir` (lines 35–55 of `temp_dir.py`): record the original
directory, create and enter a fresh temporary directory, run the block with
the temporary path, and on every exit path attempt to restore the original
directory and then delete the temporary directory. -/
def in_temp_dir {α : Type} (f : Faults) (block : Block α) (st : PState) :
    Except Err α × PState :=
  let original_directory := getcwd st
  match scopeEnter f st with
  | (.error e, st1) => (.error e, st1)
  | (.ok temporary_directory, st2) =>
    let r3 := block temporary_directory st2
    scopeExit f original_directory temporary_directory r3.1 r3.2

/-- A callable together with the identity metadata (`__name__`, `__doc__`)
that `functools.wraps` copies.  `A` is the type of the argument tuple. -/
structure Callable (A : Type) (α : Type) where
  name : String
  doc : String
  call : A → PState → Except Err α × PState

/-- `within_temp_dir` (lines 58–77 of `temp_dir.py`): wrap `func` so that a
call runs `func` with the supplied arguments inside an `in_temp_dir` scope
(the yielded path is unused), returning `func`'s result after cleanup;
`functools.wraps` copies the name and docstring. -/
def within_temp_dir {A α : Type} (f : Faults) (func : Callable A α) : Callable A α :=
  { name := func.name
    doc := func.doc
    call := fun args st => in_temp_dir f (fun _ s => func.call args s) st }

/-- The state has never handed out temporary names at or above its counter:
no entry at or under a not-yet-issued temporary directory exists. -/
def counterFresh (st : PState) : Prop :=
  ∀ n rest, st.counter ≤ n → Entry.tmp n rest ∉ st.fs

/-! ## Basic facts about the individual operating-system calls -/

theorem chdir_snd_log (f : Faults) (d : Entry) (st : PState) :
    (chdir f d st).2.log = st.log ++ [Op.chdirOp d] := by
  simp only [chdir]
  split <;> rfl

theorem chdir_snd_fs (f : Faults) (d : Entry) (st : PState) :
    (chdir f d st).2.fs = st.fs := by
  simp only [chdir]
  split <;> rfl

theorem chdir_snd_counter (f : Faults) (d : Entry) (st : PState) :
    (chdir f d st).2.counter = st.counter := by
  simp only [chdir]
  split <;> rfl

theorem chdir_ok (f : Faults) (d : Entry) (st : PState)
    (hmem : d ∈ st.fs) (hden : d ∉ f.chdirDenied) :
    chdir f d st = (.ok (), { st with cwd := d, log := st.log ++ [Op.chdirOp d] }) := by
  simp only [chdir]
  rw [if_pos ⟨hmem, hden⟩]

theorem chdir_fail (f : Faults) (d : Entry) (st : PState)
    (h : ¬(d ∈ st.fs ∧ d ∉ f.chdirDenied)) :
    chdir f d st =
      (.error .directoryChangeError, { st with log := st.log ++ [Op.chdirOp d] }) := by
  simp only [chdir]
  rw [if_neg h]

theorem rmtree_snd_log (f : Faults) (d : Entry) (st : PState) :
    (rmtree f d st).2.log = st.log ++ [Op.rmtreeOp d] := by
  simp only [rmtree]
  split <;> rfl

theorem rmtree_snd_cwd (f : Faults) (d : Entry) (st : PState) :
    (rmtree f d st).2.cwd = st.cwd := by
  simp only [rmtree]
  split <;> rfl

theorem rmtree_snd_counter (f : Faults) (d : Entry) (st : PState) :
    (rmtree f d st).2.counter = st.counter := by
  simp only [rmtree]
  split <;> rfl

theorem rmtree_ok (f : Faults) (d : Entry) (st : PState) (h : d ∉ f.rmtreeDenied) :
    rmtree f d st =
      (.ok (), { st with fs := st.fs.filter (fun e => !isUnder d e),
                         log := st.log ++ [Op.rmtreeOp d] }) := by
  simp only [rmtree]
  rw [if_neg h]

theorem rmtree_fail (f : Faults) (d : Entry) (st : PState) (h : d ∈ f.rmtreeDenied) :
    rmtree f d st = (.error .cleanupError, { st with log := st.log ++ [Op.rmtreeOp d] }) := by
  simp only [rmtree]
  rw [if_pos h]

/-- On the success path (`mkdtemp` succeeds, entering `chdir` succeeds), the
entry code yields the fresh directory and the fully-described state. -/
theorem scopeEnter_ok (f : Faults) (st : PState)
    (hm : f.mkdtempFails = false)
    (hd : Entry.tmp st.counter [] ∉ f.chdirDenied) :
    scopeEnter f st =
      (.ok (Entry.tmp st.counter []),
       { cwd := Entry.tmp st.counter [],
         fs := Entry.tmp st.counter [] :: st.fs,
         counter := st.counter + 1,
         log := st.log ++ [Op.mkdtempOp, Op.chdirOp (Entry.tmp st.counter [])] }) := by
  simp only [scopeEnter, mkdtemp, hm, Bool.false_eq_true, if_false]
  rw [chdir_ok]
  · simp
  · exact List.mem_cons_self _ _
  · exact hd

/-- Whatever the outcomes of the two cleanup steps, the exit code attempts
the restoring `chdir` first and the `rmtree` second. -/
theorem scopeExit_snd_log {α : Type} (f : Faults) (o t : Entry) (res : Except Err α)
    (st : PState) :
    (scopeExit f o t res st).2.log = st.log ++ [Op.chdirOp o, Op.rmtreeOp t] := by
  simp only [scopeExit]
  have h5 := rmtree_snd_log f t (chdir f o st).2
  have h4 := chdir_snd_log f o st
  split
  · simp [h5, h4]
  · split <;> simp [h5, h4]

/-- The exit code's final filesystem: whether or not the restoring `chdir`
succeeded, when `rmtree` is not denied the temporary tree is filtered out. -/
theorem scopeExit_snd_fs_of_rmtree_ok {α : Type} (f : Faults) (o t : Entry)
    (res : Except Err α) (st : PState) (h : t ∉ f.rmtreeDenied) :
    (scopeExit f o t res st).2.fs = st.fs.filter (fun e => !isUnder t e) := by
  simp only [scopeExit]
  rw [rmtree_ok f t _ h]
  have h4 := chdir_snd_fs f o st
  split
  · simp [h4]
  · split <;> simp [h4]

/-- The exit code's final working directory equals the restore target
whenever the restoring `chdir` succeeds (`rmtree` never moves the process). -/
theorem scopeExit_snd_cwd_of_restore_ok {α : Type} (f : Faults) (o t : Entry)
    (res : Except Err α) (st : PState) (hmem : o ∈ st.fs) (hden : o ∉ f.chdirDenied) :
    (scopeExit f o t res st).2.cwd = o := by
  simp only [scopeExit]
  rw [chdir_ok f o st hmem hden]
  have h5 := rmtree_snd_cwd f t { st with cwd := o, log := st.log ++ [Op.chdirOp o] }
  split
  · simpa using h5
  · split <;> simpa using h5

/-- When both cleanup steps succeed, the exit code propagates the block's
own outcome. -/
theorem scopeExit_fst_of_cleanup_ok {α : Type} (f : Faults) (o t : Entry)
    (res : Except Err α) (st : PState) (hmem : o ∈ st.fs) (hden : o ∉ f.chdirDenied)
    (hrm : t ∉ f.rmtreeDenied) :
    (scopeExit f o t res st).1 = res := by
  simp only [scopeExit]
  rw [chdir_ok f o st hmem hden, rmtree_ok f t _ hrm]

/-- When the restoring `chdir` succeeds but `rmtree` is denied, the exit
code raises the cleanup error. -/
theorem scopeExit_fst_of_rmtree_fail {α : Type} (f : Faults) (o t : Entry)
    (res : Except Err α) (st : PState) (hrm : t ∈ f.rmtreeDenied) :
    (scopeExit f o t res st).1 = .error .cleanupError := by
  simp only [scopeExit]
  rw [rmtree_fail f t _ hrm]

/-- When the restoring `chdir` fails but `rmtree` succeeds, the exit code
raises the directory-change error. -/
theorem scopeExit_fst_of_restore_fail {α : Type} (f : Faults) (o t : Entry)
    (res : Except Err α) (st : PState)
    (hch : ¬(o ∈ st.fs ∧ o ∉ f.chdirDenied)) (hrm : t ∉ f.rmtreeDenied) :
    (scopeExit f o t res st).1 = .error .directoryChangeError := by
  simp only [scopeExit]
  rw [chdir_fail f o st hch, rmtree_ok f t _ hrm]

/-- On the success path of the entry code, `in_temp_dir` is the exit code
applied to the block's outcome from the fully-described post-entry state. -/
theorem in_temp_dir_ok_eq {α : Type} (f : Faults) (b : Block α) (st : PState)
    (hm : f.mkdtempFails = false)
    (hd : Entry.tmp st.counter [] ∉ f.chdirDenied) :
    in_temp_dir f b st =
      scopeExit f st.cwd (Entry.tmp st.counter [])
        (b (Entry.tmp st.counter [])
          { cwd := Entry.tmp st.counter [],
            fs := Entry.tmp st.counter [] :: st.fs,
            counter := st.counter + 1,
            log := st.log ++ [Op.mkdtempOp, Op.chdirOp (Entry.tmp st.counter [])] }).1
        (b (Entry.tmp st.counter [])
          { cwd := Entry.tmp st.counter [],
            fs := Entry.tmp st.counter [] :: st.fs,
            counter := st.counter + 1,
            log := st.log ++ [Op.mkdtempOp, Op.chdirOp (Entry.tmp st.counter [])] }).2 := by
  simp only [in_temp_dir, getcwd]
  rw [scopeEnter_ok f st hm hd]

/-- When `mkdtemp` succeeds but the entering `chdir` is rejected, the entry
code propagates the directory-change error from a state in which the fresh
directory still exists and the working directory is unchanged. -/
theorem scopeEnter_chdir_fail (f : Faults) (st : PState)
    (hm : f.mkdtempFails = false)
    (hd : Entry.tmp st.counter [] ∈ f.chdirDenied) :
    scopeEnter f st =
      (.error .directoryChangeError,
       { cwd := st.cwd,
         fs := Entry.tmp st.counter [] :: st.fs,
         counter := st.counter + 1,
         log := st.log ++ [Op.mkdtempOp, Op.chdirOp (Entry.tmp st.counter [])] }) := by
  simp only [scopeEnter, mkdtemp, hm, Bool.false_eq_true, if_false]
  rw [chdir_fail]
  · simp
  · exact fun hcon => hcon.2 hd

/-- In a state that has never issued temporary names at or above its
counter, no existing entry lies at or under the next fresh directory. -/
theorem isUnder_counter_eq_false (st : PState) (hfresh : counterFresh st)
    (e : Entry) (he : e ∈ st.fs) :
    isUnder (Entry.tmp st.counter []) e = false := by
  cases e with
  | other s => rfl
  | tmp n r =>
    have hne : st.counter ≠ n := fun h => hfresh n r h.le (h ▸ he)
    have hp : List.isPrefixOf ([] : List String) r = true := by cases r <;> rfl
    simp only [isUnder, hp, Bool.and_true]
    exact beq_eq_false_iff_ne.mpr hne

/-! ## Concrete fixtures used by the scenario parts and the witnesses -/

/-- The fault-free host environment. -/
def noFaults : Faults := { mkdtempFails := false, chdirDenied := [], rmtreeDenied := [] }

/-- A starting state: the process stands in an ordinary directory. -/
def initState : PState :=
  { cwd := Entry.other "home", fs := [Entry.other "home"], counter := 0, log := [] }

/-- A block that succeeds without touching the process state. -/
def constBlock : Block Nat := fun _ s => (.ok 0, s)

/-! ## Claims -/

/-- C8: for every callable `f`, the callable returned by
`within_temp_dir f` carries `f`'s identity metadata (name and documentation
string), as copied by `functools.wraps`. -/
theorem within_temp_dir_preserves_metadata {A α : Type} (f : Faults)
    (func : Callable A α) :
    (within_temp_dir f func).name = func.name ∧
    (within_temp_dir f func).doc = func.doc :=
  ⟨rfl, rfl⟩

/-- The specification's example callable: `f(x, y=2)` returning `x + y`,
with the keyword argument modelled as an optional second component that
defaults to `2`; it also reports the working directory it observed. -/
def addXY : Callable (Nat × Option Nat) (Nat × Entry) :=
  { name := "f",
    doc := "return x + y",
    call := fun a st => (.ok (a.1 + a.2.getD 2, st.cwd), st) }

/-- C6: for every callable and every argument combination, the callable
returned by `within_temp_dir` invokes the original with exactly those
arguments inside an `in_temp_dir` scope and yields its outcome after the
scope's cleanup; concretely, wrapping `f(x, y=2) = x + y` and calling it
with `(3)` returns `5`, observed from the temporary directory (not the
caller's directory), with the working directory restored and the temporary
directory deleted afterwards. -/
theorem within_temp_dir_runs_func_in_scope :
    (∀ (A α : Type) (f : Faults) (func : Callable A α) (a : A) (st : PState),
      (within_temp_dir f func).call a st = in_temp_dir f (fun _ s => func.call a s) st) ∧
    ((within_temp_dir noFaults addXY).call (3, none) initState).1
      = .ok (5, Entry.tmp 0 []) ∧
    Entry.tmp 0 [] ≠ initState.cwd ∧
    ((within_temp_dir noFaults addXY).call (3, none) initState).2.cwd = initState.cwd ∧
    Entry.tmp 0 [] ∉ ((within_temp_dir noFaults addXY).call (3, none) initState).2.fs :=
  ⟨fun _ _ _ _ _ _ => rfl, rfl, by decide, by decide, by decide⟩

/-- C9: when `mkdtemp` succeeds but the `os.chdir` into the fresh directory
fails, `in_temp_dir` propagates the directory-change error with the working
directory unchanged, while the already-created temporary directory is never
deleted: it remains on disk and no `rmtree` is even attempted, because the
entering `chdir` runs before the `try`/`finally` that guards cleanup. -/
theorem in_temp_dir_enter_chdir_fail {α : Type} (f : Faults) (b : Block α) (st : PState)
    (hm : f.mkdtempFails = false)
    (hd : Entry.tmp st.counter [] ∈ f.chdirDenied) :
    (in_temp_dir f b st).1 = .error .directoryChangeError ∧
    (in_temp_dir f b st).2.cwd = st.cwd ∧
    Entry.tmp st.counter [] ∈ (in_temp_dir f b st).2.fs ∧
    (in_temp_dir f b st).2.log
      = st.log ++ [Op.mkdtempOp, Op.chdirOp (Entry.tmp st.counter [])] := by
  simp only [in_temp_dir, getcwd]
  rw [scopeEnter_chdir_fail f st hm hd]
  exact ⟨rfl, rfl, List.mem_cons_self _ _, rfl⟩

/-- An environment in which the entering `chdir` is rejected. -/
def denyEnter : Faults :=
  { mkdtempFails := false, chdirDenied := [Entry.tmp 0 []], rmtreeDenied := [] }

/-- Witness for C9 at a concrete environment and state. -/
theorem in_temp_dir_enter_chdir_fail_witness :
    (in_temp_dir denyEnter constBlock initState).1 = .error .directoryChangeError ∧
    (in_temp_dir denyEnter constBlock initState).2.cwd = initState.cwd ∧
    Entry.tmp initState.counter [] ∈ (in_temp_dir denyEnter constBlock initState).2.fs ∧
    (in_temp_dir denyEnter constBlock initState).2.log
      = initState.log ++ [Op.mkdtempOp, Op.chdirOp (Entry.tmp initState.counter [])] :=
  in_temp_dir_enter_chdir_fail denyEnter constBlock initState rfl (by decide)

/-- C2: for every invocation of `in_temp_dir`, after the scope exits —
whether the block completed normally or raised — the working directory
equals the one recorded immediately before entry, provided the restoring
`chdir` cannot fail (the original directory still exists after the block
and the host does not reject switching to it). -/
theorem in_temp_dir_restores_cwd {α : Type} (f : Faults) (b : Block α) (st : PState)
    (hm : f.mkdtempFails = false)
    (hd : Entry.tmp st.counter [] ∉ f.chdirDenied)
    (hod : st.cwd ∉ f.chdirDenied)
    (hcwd : st.cwd ∈ st.fs)
    (hb : ∀ p s, st.cwd ∈ s.fs → st.cwd ∈ ((b p s).2).fs) :
    (in_temp_dir f b st).2.cwd = st.cwd := by
  rw [in_temp_dir_ok_eq f b st hm hd]
  exact scopeExit_snd_cwd_of_restore_ok f _ _ _ _
    (hb _ _ (List.mem_cons_of_mem _ hcwd)) hod

/-- A block that raises the Python `ValueError` of the specification's
Scenario 1, leaving the state untouched. -/
def raiseValueError : Block Nat := fun _ s => (.error (.blockError "ValueError"), s)

/-- Witness for C2: a block that raises still leaves the working directory
restored. -/
theorem in_temp_dir_restores_cwd_witness :
    (in_temp_dir noFaults raiseValueError initState).2.cwd = initState.cwd :=
  in_temp_dir_restores_cwd noFaults raiseValueError initState rfl (by decide)
    (by decide) (by decide) (fun _ _ h => h)

/-- C3: for every invocation of `in_temp_dir`, after the scope exits the
temporary directory created at entry and everything under it are gone from
the filesystem, provided the deletion is not rejected — whatever the block
did and even if the restoring `chdir` failed. -/
theorem in_temp_dir_deletes_tmp {α : Type} (f : Faults) (b : Block α) (st : PState)
    (hm : f.mkdtempFails = false)
    (hd : Entry.tmp st.counter [] ∉ f.chdirDenied)
    (hrm : Entry.tmp st.counter [] ∉ f.rmtreeDenied) :
    ∀ e, isUnder (Entry.tmp st.counter []) e = true →
      e ∉ (in_temp_dir f b st).2.fs := by
  rw [in_temp_dir_ok_eq f b st hm hd]
  intro e he hmem
  rw [scopeExit_snd_fs_of_rmtree_ok f _ _ _ _ hrm] at hmem
  have := List.of_mem_filter hmem
  simp [he] at this

/-- Witness for C3 at a concrete environment, block, state and entry: the
temporary directory itself is gone after the scope exits. -/
theorem in_temp_dir_deletes_tmp_witness :
    isUnder (Entry.tmp initState.counter []) (Entry.tmp 0 []) = true ∧
    Entry.tmp 0 [] ∉ (in_temp_dir noFaults constBlock initState).2.fs :=
  ⟨by decide,
   in_temp_dir_deletes_tmp noFaults constBlock initState rfl (by decide) (by decide)
     (Entry.tmp 0 []) (by decide)⟩

/-- C5: when the caller's block raises, cleanup still runs — the working
directory is restored and the temporary directory deleted — and the block's
error (e.g. a `ValueError`) reaches the caller after that cleanup.  The
hypothesis `hlive` restricts the statement to blocks that leave the yielded
directory in place: `shutil.rmtree` raises `FileNotFoundError` on a missing
target, so a block that removed the temporary directory itself would make
the cleanup deletion fail and its error supersede the block's under
Python's `finally` semantics; the final conjunct records that on the
covered runs the directory is indeed still present when the deletion is
attempted. -/
theorem in_temp_dir_propagates_block_error {α : Type} (f : Faults) (b : Block α)
    (st : PState) (msg : String)
    (hm : f.mkdtempFails = false)
    (hd : Entry.tmp st.counter [] ∉ f.chdirDenied)
    (hod : st.cwd ∉ f.chdirDenied)
    (hcwd : st.cwd ∈ st.fs)
    (hrm : Entry.tmp st.counter [] ∉ f.rmtreeDenied)
    (hb : ∀ p s, st.cwd ∈ s.fs → st.cwd ∈ ((b p s).2).fs)
    (hlive : ∀ p s, p ∈ s.fs → p ∈ ((b p s).2).fs)
    (herr : ∀ p s, (b p s).1 = .error (.blockError msg)) :
    (in_temp_dir f b st).1 = .error (.blockError msg) ∧
    (in_temp_dir f b st).2.cwd = st.cwd ∧
    (∀ e, isUnder (Entry.tmp st.counter []) e = true →
      e ∉ (in_temp_dir f b st).2.fs) ∧
    (∃ st2, scopeEnter f st = (.ok (Entry.tmp st.counter []), st2) ∧
      Entry.tmp st.counter [] ∈ ((b (Entry.tmp st.counter []) st2).2).fs) := by
  rw [in_temp_dir_ok_eq f b st hm hd]
  refine ⟨?_, ?_, ?_, ?_⟩
  · rw [scopeExit_fst_of_cleanup_ok f _ _ _ _
      (hb _ _ (List.mem_cons_of_mem _ hcwd)) hod hrm]
    exact herr _ _
  · exact scopeExit_snd_cwd_of_restore_ok f _ _ _ _
      (hb _ _ (List.mem_cons_of_mem _ hcwd)) hod
  · intro e he hmem
    rw [scopeExit_snd_fs_of_rmtree_ok f _ _ _ _ hrm] at hmem
    have := List.of_mem_filter hmem
    simp [he] at this
  · exact ⟨_, scopeEnter_ok f st hm hd, hlive _ _ (List.mem_cons_self _ _)⟩

/-- Witness for C5: the `ValueError` of Scenario 1, raised by a block that
leaves the temporary directory in place, propagates with the working
directory restored and the temporary directory deleted. -/
theorem in_temp_dir_propagates_block_error_witness :
    (in_temp_dir noFaults raiseValueError initState).1
      = .error (.blockError "ValueError") ∧
    (in_temp_dir noFaults raiseValueError initState).2.cwd = initState.cwd ∧
    (∀ e, isUnder (Entry.tmp initState.counter []) e = true →
      e ∉ (in_temp_dir noFaults raiseValueError initState).2.fs) ∧
    (∃ st2, scopeEnter noFaults initState
        = (.ok (Entry.tmp initState.counter []), st2) ∧
      Entry.tmp initState.counter []
        ∈ ((raiseValueError (Entry.tmp initState.counter []) st2).2).fs) :=
  in_temp_dir_propagates_block_error noFaults raiseValueError initState "ValueError"
    rfl (by decide) (by decide) (by decide) (by decide) (fun _ _ h => h)
    (fun _ _ h => h) (fun _ _ => rfl)

/-- C10: even when the block leaves the process in some other directory,
the exit path restores the working directory to the one captured at entry
(recorded once, before the temporary directory was created) — not to
whatever directory was current when the block ended. -/
theorem in_temp_dir_restore_ignores_block_cwd {α : Type} (f : Faults) (b : Block α)
    (st : PState)
    (hm : f.mkdtempFails = false)
    (hd : Entry.tmp st.counter [] ∉ f.chdirDenied)
    (hod : st.cwd ∉ f.chdirDenied)
    (hcwd : st.cwd ∈ st.fs)
    (hb : ∀ p s, st.cwd ∈ s.fs → st.cwd ∈ ((b p s).2).fs)
    (hmoved : ∀ p s, ((b p s).2).cwd ≠ st.cwd) :
    (in_temp_dir f b st).2.cwd = st.cwd ∧
    ∃ st2, scopeEnter f st = (.ok (Entry.tmp st.counter []), st2) ∧
      ((b (Entry.tmp st.counter []) st2).2).cwd ≠ (in_temp_dir f b st).2.cwd := by
  have hrestore : (in_temp_dir f b st).2.cwd = st.cwd := by
    rw [in_temp_dir_ok_eq f b st hm hd]
    exact scopeExit_snd_cwd_of_restore_ok f _ _ _ _
      (hb _ _ (List.mem_cons_of_mem _ hcwd)) hod
  refine ⟨hrestore, _, scopeEnter_ok f st hm hd, ?_⟩
  rw [hrestore]
  exact hmoved _ _

/-- A block that wanders off to another directory before exiting. -/
def wanderBlock : Block Nat := fun _ s => (.ok 0, { s with cwd := Entry.other "away" })

/-- Witness for C10: the block ends in a different directory, yet the exit
path restores the entry-time one. -/
theorem in_temp_dir_restore_ignores_block_cwd_witness :
    (in_temp_dir noFaults wanderBlock initState).2.cwd = initState.cwd ∧
    ∃ st2, scopeEnter noFaults initState
        = (.ok (Entry.tmp initState.counter []), st2) ∧
      ((wanderBlock (Entry.tmp initState.counter []) st2).2).cwd
        ≠ (in_temp_dir noFaults wanderBlock initState).2.cwd :=
  in_temp_dir_restore_ignores_block_cwd noFaults wanderBlock initState rfl
    (by decide) (by decide) (by decide) (fun _ _ h => h)
    (by intro p s; simp [wanderBlock, initState])

/-- C1: on every exit of `in_temp_dir`, the restoring `chdir` is attempted
strictly before the `rmtree` of the temporary directory, and both attempts
appear in the call log whatever the outcome of either step — so a restore
failure cannot suppress the deletion attempt.  Moreover, if only the
deletion step fails, the cleanup error is raised to the caller while the
working directory has already been restored to the original value. -/
theorem in_temp_dir_cleanup_order {α : Type} (f : Faults) (b : Block α) (st : PState)
    (hm : f.mkdtempFails = false)
    (hd : Entry.tmp st.counter [] ∉ f.chdirDenied) :
    ∃ st2, scopeEnter f st = (.ok (Entry.tmp st.counter []), st2) ∧
      (in_temp_dir f b st).2.log =
        ((b (Entry.tmp st.counter []) st2).2).log
          ++ [Op.chdirOp st.cwd, Op.rmtreeOp (Entry.tmp st.counter [])] ∧
      (st.cwd ∈ ((b (Entry.tmp st.counter []) st2).2).fs →
        st.cwd ∉ f.chdirDenied →
        Entry.tmp st.counter [] ∈ f.rmtreeDenied →
          (in_temp_dir f b st).1 = .error .cleanupError ∧
          (in_temp_dir f b st).2.cwd = st.cwd) := by
  refine ⟨_, scopeEnter_ok f st hm hd, ?_, ?_⟩
  · rw [in_temp_dir_ok_eq f b st hm hd]
    exact scopeExit_snd_log f _ _ _ _
  · intro hmem hden hrm
    constructor
    · rw [in_temp_dir_ok_eq f b st hm hd]
      exact scopeExit_fst_of_rmtree_fail f _ _ _ _ hrm
    · rw [in_temp_dir_ok_eq f b st hm hd]
      exact scopeExit_snd_cwd_of_restore_ok f _ _ _ _ hmem hden

/-- An environment in which deleting the temporary directory is rejected
(Scenario 4: a file inside the temporary directory is made undeletable). -/
def denyRmtree : Faults :=
  { mkdtempFails := false, chdirDenied := [], rmtreeDenied := [Entry.tmp 0 []] }

/-- Witness for C1: with deletion denied, the cleanup error surfaces, the
working directory is already restored, and the log shows the restore
attempt followed by the deletion attempt. -/
theorem in_temp_dir_cleanup_order_witness :
    ∃ st2, scopeEnter denyRmtree initState
        = (.ok (Entry.tmp initState.counter []), st2) ∧
      (in_temp_dir denyRmtree constBlock initState).2.log =
        ((constBlock (Entry.tmp initState.counter []) st2).2).log
          ++ [Op.chdirOp initState.cwd, Op.rmtreeOp (Entry.tmp initState.counter [])] ∧
      (initState.cwd ∈ ((constBlock (Entry.tmp initState.counter []) st2).2).fs →
        initState.cwd ∉ denyRmtree.chdirDenied →
        Entry.tmp initState.counter [] ∈ denyRmtree.rmtreeDenied →
          (in_temp_dir denyRmtree constBlock initState).1 = .error .cleanupError ∧
          (in_temp_dir denyRmtree constBlock initState).2.cwd = initState.cwd) :=
  in_temp_dir_cleanup_order denyRmtree constBlock initState rfl (by decide)

/-- C4: at the moment the caller's block begins executing, the yielded
temporary directory exists on disk, is empty, and is the current working
directory; the last conjunct records that `in_temp_dir` hands exactly this
path and this state to the block. -/
theorem in_temp_dir_block_precondition (f : Faults) (st : PState)
    (hm : f.mkdtempFails = false)
    (hd : Entry.tmp st.counter [] ∉ f.chdirDenied)
    (hfresh : counterFresh st) :
    ∃ st2, scopeEnter f st = (.ok (Entry.tmp st.counter []), st2) ∧
      st2.cwd = Entry.tmp st.counter [] ∧
      Entry.tmp st.counter [] ∈ st2.fs ∧
      (∀ e ∈ st2.fs, isUnder (Entry.tmp st.counter []) e = true →
        e = Entry.tmp st.counter []) ∧
      (∀ (α : Type) (b : Block α), in_temp_dir f b st =
        scopeExit f st.cwd (Entry.tmp st.counter [])
          (b (Entry.tmp st.counter []) st2).1 (b (Entry.tmp st.counter []) st2).2) := by
  refine ⟨_, scopeEnter_ok f st hm hd, rfl, List.mem_cons_self _ _, ?_, ?_⟩
  · intro e he hu
    rcases List.mem_cons.mp he with h | h
    · exact h
    · rw [isUnder_counter_eq_false st hfresh e h] at hu
      exact absurd hu (by simp)
  · intro α b
    exact in_temp_dir_ok_eq f b st hm hd

/-- Witness for C4 at a concrete environment and state. -/
theorem in_temp_dir_block_precondition_witness :
    ∃ st2, scopeEnter noFaults initState
        = (.ok (Entry.tmp initState.counter []), st2) ∧
      st2.cwd = Entry.tmp initState.counter [] ∧
      Entry.tmp initState.counter [] ∈ st2.fs ∧
      (∀ e ∈ st2.fs, isUnder (Entry.tmp initState.counter []) e = true →
        e = Entry.tmp initState.counter []) ∧
      (∀ (α : Type) (b : Block α), in_temp_dir noFaults b initState =
        scopeExit noFaults initState.cwd (Entry.tmp initState.counter [])
          (b (Entry.tmp initState.counter []) st2).1
          (b (Entry.tmp initState.counter []) st2).2) :=
  in_temp_dir_block_precondition noFaults initState rfl (by decide)
    (by intro n rest h hmem; simp [initState] at hmem)

/-! ## Sequential invocations (repeatability) -/

theorem scopeExit_snd_counter {α : Type} (f : Faults) (o t : Entry) (res : Except Err α)
    (st : PState) :
    (scopeExit f o t res st).2.counter = st.counter := by
  simp only [scopeExit]
  have h5 := rmtree_snd_counter f t (chdir f o st).2
  have h4 := chdir_snd_counter f o st
  split
  · simp [h5, h4]
  · split <;> simp [h5, h4]

theorem isUnder_tmp_nil_self (c : Nat) :
    isUnder (Entry.tmp c []) (Entry.tmp c []) = true := by
  simp [isUnder, List.isPrefixOf]

theorem isUnder_tmp_elim (c : Nat) (e : Entry)
    (h : isUnder (Entry.tmp c []) e = true) : ∃ rest, e = Entry.tmp c rest := by
  cases e with
  | other s => simp [isUnder] at h
  | tmp n r =>
    simp only [isUnder, Bool.and_eq_true, beq_iff_eq] at h
    exact ⟨r, by rw [h.1]⟩

/-- A block is benign when it keeps the issuance counter, deletes nothing
outside the yielded directory, and creates entries only inside it — the
behaviour of ordinary user code running in the scope. -/
def Benign {α : Type} (b : Block α) : Prop :=
  ∀ p s,
    ((b p s).2).counter = s.counter ∧
    (∀ e ∈ s.fs, isUnder p e = false → e ∈ ((b p s).2).fs) ∧
    (∀ e ∈ ((b p s).2).fs, e ∈ s.fs ∨ isUnder p e = true)

/-- The fault-free exit code, applied after a benign block, restores the
working directory, keeps the counter, only shrinks the filesystem relative
to the pre-entry state, keeps the original directory alive, and preserves
counter-freshness. -/
theorem scopeExit_benign {α : Type} (f : Faults) (st : PState) (res : Except Err α)
    (s3 : PState)
    (hcd : f.chdirDenied = []) (hrd : f.rmtreeDenied = [])
    (hcwdfs : st.cwd ∈ st.fs)
    (hfresh : counterFresh st)
    (hcwd3 : st.cwd ∈ s3.fs)
    (hc3 : s3.counter = st.counter + 1)
    (hnew : ∀ e ∈ s3.fs, e = Entry.tmp st.counter [] ∨ e ∈ st.fs ∨
      isUnder (Entry.tmp st.counter []) e = true) :
    (scopeExit f st.cwd (Entry.tmp st.counter []) res s3).2.cwd = st.cwd ∧
    (scopeExit f st.cwd (Entry.tmp st.counter []) res s3).2.counter = st.counter + 1 ∧
    (scopeExit f st.cwd (Entry.tmp st.counter []) res s3).2.fs ⊆ st.fs ∧
    st.cwd ∈ (scopeExit f st.cwd (Entry.tmp st.counter []) res s3).2.fs ∧
    counterFresh (scopeExit f st.cwd (Entry.tmp st.counter []) res s3).2 := by
  have hrm : Entry.tmp st.counter [] ∉ f.rmtreeDenied := by
    rw [hrd]; exact List.not_mem_nil _
  have hod : st.cwd ∉ f.chdirDenied := by
    rw [hcd]; exact List.not_mem_nil _
  have hcu : isUnder (Entry.tmp st.counter []) st.cwd = false :=
    isUnder_counter_eq_false st hfresh _ hcwdfs
  have hfs : (scopeExit f st.cwd (Entry.tmp st.counter []) res s3).2.fs
      = s3.fs.filter (fun e => !isUnder (Entry.tmp st.counter []) e) :=
    scopeExit_snd_fs_of_rmtree_ok f _ _ _ _ hrm
  have hcount : (scopeExit f st.cwd (Entry.tmp st.counter []) res s3).2.counter
      = st.counter + 1 := by
    rw [scopeExit_snd_counter]; exact hc3
  have hsub : (scopeExit f st.cwd (Entry.tmp st.counter []) res s3).2.fs ⊆ st.fs := by
    intro e he
    rw [hfs] at he
    have h1 := List.of_mem_filter he
    have h2 := List.mem_of_mem_filter he
    rcases hnew e h2 with h | h | h
    · rw [h, isUnder_tmp_nil_self] at h1
      exact absurd h1 (by simp)
    · exact h
    · rw [h] at h1
      exact absurd h1 (by simp)
  refine ⟨?_, hcount, hsub, ?_, ?_⟩
  · exact scopeExit_snd_cwd_of_restore_ok f _ _ _ _ hcwd3 hod
  · rw [hfs]
    exact List.mem_filter.mpr ⟨hcwd3, by rw [hcu]; rfl⟩
  · intro n rest hn hmem
    rw [hcount] at hn
    exact hfresh n rest (by omega) (hsub hmem)

/-- One fault-free invocation of `in_temp_dir` with a benign block restores
the working directory, increments the issuance counter once, only shrinks
the filesystem, keeps the original directory alive, and preserves
counter-freshness. -/
theorem in_temp_dir_benign_step {α : Type} (f : Faults) (b : Block α) (st : PState)
    (hm : f.mkdtempFails = false)
    (hcd : f.chdirDenied = [])
    (hrd : f.rmtreeDenied = [])
    (hben : Benign b)
    (hcwd : st.cwd ∈ st.fs)
    (hfresh : counterFresh st) :
    (in_temp_dir f b st).2.cwd = st.cwd ∧
    (in_temp_dir f b st).2.counter = st.counter + 1 ∧
    (in_temp_dir f b st).2.fs ⊆ st.fs ∧
    st.cwd ∈ (in_temp_dir f b st).2.fs ∧
    counterFresh (in_temp_dir f b st).2 := by
  have hd : Entry.tmp st.counter [] ∉ f.chdirDenied := by
    rw [hcd]; exact List.not_mem_nil _
  rw [in_temp_dir_ok_eq f b st hm hd]
  obtain ⟨hc3, hkeep, hnew⟩ := hben (Entry.tmp st.counter [])
    { cwd := Entry.tmp st.counter [],
      fs := Entry.tmp st.counter [] :: st.fs,
      counter := st.counter + 1,
      log := st.log ++ [Op.mkdtempOp, Op.chdirOp (Entry.tmp st.counter [])] }
  refine scopeExit_benign f st _ _ hcd hrd hcwd hfresh ?_ hc3 ?_
  · exact hkeep st.cwd (List.mem_cons_of_mem _ hcwd)
      (isUnder_counter_eq_false st hfresh _ hcwd)
  · intro e he
    rcases hnew e he with h | h
    · rcases List.mem_cons.mp h with h' | h'
      · exact Or.inl h'
      · exact Or.inr (Or.inl h')
    · exact Or.inr (Or.inr h)

/-- `seqRun f blocks n st`: the process state after `n` sequential
invocations of `in_temp_dir`, the `i`-th invocation running `blocks i`. -/
def seqRun {α : Type} (f : Faults) (blocks : Nat → Block α) : Nat → PState → PState
  | 0, st => st
  | n + 1, st => (in_temp_dir f (blocks n) (seqRun f blocks n st)).2

/-- Invariant of a fault-free sequence of benign invocations: the working
directory never moves, the original directory survives, counter-freshness
is preserved, the counter advances once per invocation, and the filesystem
only shrinks over time. -/
theorem seqRun_inv {α : Type} (f : Faults) (blocks : Nat → Block α) (st : PState)
    (hm : f.mkdtempFails = false) (hcd : f.chdirDenied = []) (hrd : f.rmtreeDenied = [])
    (hben : ∀ i, Benign (blocks i))
    (hcwd : st.cwd ∈ st.fs) (hfresh : counterFresh st) :
    ∀ n, (seqRun f blocks n st).cwd = st.cwd ∧
      st.cwd ∈ (seqRun f blocks n st).fs ∧
      counterFresh (seqRun f blocks n st) ∧
      (seqRun f blocks n st).counter = st.counter + n ∧
      ∀ m, m ≤ n → (seqRun f blocks n st).fs ⊆ (seqRun f blocks m st).fs := by
  intro n
  induction n with
  | zero =>
    refine ⟨rfl, hcwd, hfresh, rfl, ?_⟩
    intro m hm0
    have hz : m = 0 := Nat.le_zero.mp hm0
    subst hz
    exact fun _ h => h
  | succ k ih =>
    obtain ⟨h1, h2, h3, h4, h5⟩ := ih
    have h2' : (seqRun f blocks k st).cwd ∈ (seqRun f blocks k st).fs := by
      rw [h1]; exact h2
    obtain ⟨s1, s2, s3, s4, s5⟩ :=
      in_temp_dir_benign_step f (blocks k) (seqRun f blocks k st)
        hm hcd hrd (hben k) h2' h3
    rw [h1] at s1 s4
    refine ⟨s1, s4, s5, ?_, ?_⟩
    · show (in_temp_dir f (blocks k) (seqRun f blocks k st)).2.counter = st.counter + (k + 1)
      rw [s2, h4]
      omega
    · intro m hmk
      rcases Nat.lt_or_ge m (k + 1) with hlt | hge
      · exact fun e he => h5 m (Nat.lt_succ_iff.mp hlt) (s3 he)
      · have heq : m = k + 1 := le_antisymm hmk hge
        subst heq
        exact fun _ h => h

/-- C7: for every number `N` of sequential fault-free invocations of
`in_temp_dir` with benign blocks, the `N` invocations create `N` pairwise
distinct temporary directory paths (the `i`-th invocation creates
`Entry.tmp (seqRun … i …).counter []`), each of which — together with
everything inside it — is fully cleaned up by the end of the sequence, and
the process's working directory is unchanged across the whole sequence. -/
theorem in_temp_dir_repeatable {α : Type} (f : Faults) (blocks : Nat → Block α)
    (st : PState) (N : Nat)
    (hm : f.mkdtempFails = false) (hcd : f.chdirDenied = []) (hrd : f.rmtreeDenied = [])
    (hben : ∀ i, Benign (blocks i))
    (hcwd : st.cwd ∈ st.fs) (hfresh : counterFresh st) :
    (∀ i, i < N → (seqRun f blocks i st).counter = st.counter + i) ∧
    (∀ i j, i < N → j < N → i ≠ j →
      Entry.tmp (seqRun f blocks i st).counter []
        ≠ Entry.tmp (seqRun f blocks j st).counter []) ∧
    (∀ i, i < N → ∀ e,
      isUnder (Entry.tmp (seqRun f blocks i st).counter []) e = true →
        e ∉ (seqRun f blocks N st).fs) ∧
    (seqRun f blocks N st).cwd = st.cwd := by
  have inv := seqRun_inv f blocks st hm hcd hrd hben hcwd hfresh
  refine ⟨?_, ?_, ?_, (inv N).1⟩
  · intro i _
    exact (inv i).2.2.2.1
  · intro i j hi hj hij
    rw [(inv i).2.2.2.1, (inv j).2.2.2.1]
    intro hcon
    injection hcon with h _
    exact hij (by omega)
  · intro i hiN e he hmem
    obtain ⟨rest, hrest⟩ := isUnder_tmp_elim _ e he
    have hin : e ∈ (seqRun f blocks i st).fs :=
      (inv N).2.2.2.2 i (le_of_lt hiN) hmem
    rw [hrest] at hin
    exact (inv i).2.2.1 _ rest le_rfl hin

/-- Witness for C7: three sequential fault-free invocations with a benign
block from a concrete initial state. -/
theorem in_temp_dir_repeatable_witness :
    (∀ i, i < 3 → (seqRun noFaults (fun _ => constBlock) i initState).counter
      = initState.counter + i) ∧
    (∀ i j, i < 3 → j < 3 → i ≠ j →
      Entry.tmp (seqRun noFaults (fun _ => constBlock) i initState).counter []
        ≠ Entry.tmp (seqRun noFaults (fun _ => constBlock) j initState).counter []) ∧
    (∀ i, i < 3 → ∀ e,
      isUnder (Entry.tmp (seqRun noFaults (fun _ => constBlock) i initState).counter [])
          e = true →
        e ∉ (seqRun noFaults (fun _ => constBlock) 3 initState).fs) ∧
    (seqRun noFaults (fun _ => constBlock) 3 initState).cwd = initState.cwd :=
  in_temp_dir_repeatable noFaults (fun _ => constBlock) initState 3 rfl rfl rfl
    (fun _ _ _ => ⟨rfl, fun _ he _ => he, fun _ he => Or.inl he⟩)
    (by decide) (by intro n rest h hmem; simp [initState] at hmem)
